import Mathlib

/-!
# Verification of the InvoiceForge storage layer

Shallow embedding of `server/storage.ts` (class `MemStorage`) and proofs about
the invoice-total computation, sequential invoice numbering, cascade deletion,
statistics aggregation and absent-id behaviour.

Modelling conventions:

* JavaScript numbers are modelled as exact rationals (`ℚ`).  Monetary fields
  that the source stores as fixed-point decimal strings (the result of
  `x.toFixed(2)`) are modelled as the rational value denoted by that string,
  i.e. `round2 x`; `parseFloat` of such a stored string is the identity in the
  model.  `Number.prototype.toFixed(2)` rounds to the nearest multiple of
  `1/100`, choosing the larger candidate on ties (ECMA-262), which is exactly
  `round (x * 100) / 100` with Mathlib's half-up `round`.
* The JS `Map` objects are modelled as association lists with `Map` semantics:
  `set` replaces the entry with the same key (or appends a fresh entry),
  `delete` removes it and reports whether it was present, lookup scans for the
  key.
* `randomUUID()` and `new Date()` are modelled as externally supplied
  parameters (`String` ids and `Nat` timestamps).
* `parseInt` (radix 10 form, as applied to invoice-number suffixes) is
  modelled as: skip leading whitespace, optional sign, then a maximal run of
  decimal digits; `NaN` is modelled as `none`.  The hexadecimal `0x` prefix
  detection of full `parseInt` is not modelled.
-/

namespace InvoiceForge

/-- `x.toFixed(2)` read back as a rational number: half-up rounding to two
decimal places (`round` is Mathlib's half-up rounding, `⌊x + 1/2⌋`, which is
the tie-breaking rule of ECMA-262 `toFixed`). -/
def round2 (q : ℚ) : ℚ := (round (q * 100) : ℤ) / 100

/-! ## Decimal printing (`String(n)`) and `padStart(3, "0")` -/

/-- The decimal digit character for `d < 10`. -/
def digitChar (d : Nat) : Char := Char.ofNat (48 + d)

/-- Fuel-indexed decimal printer (the fuel makes the recursion structural;
`fuel > n` always suffices since the argument is divided by ten). -/
def natToStrAux : Nat → Nat → List Char
  | 0, _ => []
  | fuel + 1, n =>
      if n < 10 then [digitChar n]
      else natToStrAux fuel (n / 10) ++ [digitChar (n % 10)]

/-- Decimal representation of a natural number, as in JS `String(n)`. -/
def natToStr (n : Nat) : List Char := natToStrAux (n + 1) n

/-- Decimal representation of an integer, as in JS `String(i)`. -/
def intToStr (i : Int) : List Char :=
  if i < 0 then '-' :: natToStr i.natAbs else natToStr i.toNat

/-- JS `s.padStart(3, "0")`: pad on the left with zeros up to length 3
(strings of length `≥ 3` are returned unchanged). -/
def padStart3 (s : List Char) : List Char :=
  if 3 ≤ s.length then s else List.replicate (3 - s.length) '0' ++ s

/-! ## `parseInt` -/

/-- Numeric value of a digit character. -/
def digitVal (c : Char) : Nat := c.toNat - 48

/-- Value of a run of decimal digit characters. -/
def digitsToNat (cs : List Char) : Nat :=
  cs.foldl (fun a c => 10 * a + digitVal c) 0

/-- The maximal leading digit run, as a number; `none` when there is no
leading digit (`parseInt` returns `NaN` there). -/
def parseNatSeg (cs : List Char) : Option Nat :=
  let ds := cs.takeWhile Char.isDigit
  if ds.isEmpty then none else some (digitsToNat ds)

/-- Sign handling of `parseInt` after whitespace skipping (on the empty list
every branch yields `none` since there is no digit). -/
def parseIntCore (cs : List Char) : Option Int :=
  if cs.head? = some '-' then (parseNatSeg cs.tail).map (fun (n : Nat) => -(n : Int))
  else if cs.head? = some '+' then (parseNatSeg cs.tail).map (fun (n : Nat) => (n : Int))
  else (parseNatSeg cs).map (fun (n : Nat) => (n : Int))

/-- JS `parseInt(s)` on decimal input: `none` models `NaN`. -/
def parseIntM (s : String) : Option Int :=
  parseIntCore (s.data.dropWhile Char.isWhitespace)

/-- JS `s.startsWith(p)`. -/
def jsStartsWith (s p : String) : Bool := p.data.isPrefixOf s.data

/-- JS `s.replace("INV-", "")` as used in `getNextInvoiceNumber`: the call
sites guard with `startsWith("INV-")`, under which replacing the first
occurrence of `"INV-"` is exactly dropping the four prefix characters. -/
def dropInvTag (s : String) : String :=
  if jsStartsWith s "INV-" then ⟨s.data.drop 4⟩ else s

/-! ## Data model (shared/schema.ts shapes as used by server/storage.ts)

Monetary fields that the source keeps as decimal strings (`subtotal`,
`taxRate`, `taxAmount`, `total`, line-item `rate` and `amount`) are modelled
as the rational value the string denotes.  Nullable columns are `Option`s.
`createdAt`/`updatedAt` (`new Date()`) are modelled as `Nat` timestamps
supplied by the caller. -/

/-- A client record. -/
structure Client where
  id : String
  name : String
  email : String
  address : Option String
  createdAt : Nat
deriving DecidableEq

/-- An invoice record. -/
structure Invoice where
  id : String
  invoiceNumber : String
  clientId : Option String
  clientName : String
  clientEmail : String
  clientAddress : Option String
  issueDate : String
  dueDate : Option String
  status : String
  subtotal : ℚ
  taxRate : ℚ
  taxAmount : ℚ
  total : ℚ
  notes : Option String
  createdAt : Nat
  updatedAt : Nat
deriving DecidableEq

/-- A line-item record. -/
structure LineItem where
  id : String
  invoiceId : String
  description : String
  quantity : ℚ
  rate : ℚ
  amount : ℚ
deriving DecidableEq

/-- A line item of a `CreateInvoiceRequest` (description, quantity, rate). -/
structure CreateItem where
  description : String
  quantity : ℚ
  rate : ℚ
deriving DecidableEq

/-- The body of a create-invoice request.  The source maps the falsy empty
string to `null` for `clientAddress`/`dueDate`/`notes` (`x || null`); the
embedding represents an absent-or-empty field directly as `none`. -/
structure CreateInvoiceRequest where
  clientName : String
  clientEmail : String
  clientAddress : Option String
  issueDate : String
  dueDate : Option String
  taxRate : ℚ
  notes : Option String
  lineItems : List CreateItem
deriving DecidableEq

/-- `Partial<InsertClient>`: present fields overwrite by object spread. -/
structure ClientUpdate where
  name : Option String
  email : Option String
  address : Option (Option String)
deriving DecidableEq

/-- `Partial<InsertInvoice>`: present fields overwrite by object spread
(`InsertInvoice` omits the generated `id`/`createdAt`/`updatedAt`). -/
structure InvoiceUpdate where
  invoiceNumber : Option String
  clientId : Option (Option String)
  clientName : Option String
  clientEmail : Option String
  clientAddress : Option (Option String)
  issueDate : Option String
  dueDate : Option (Option String)
  status : Option String
  subtotal : Option ℚ
  taxRate : Option ℚ
  taxAmount : Option ℚ
  total : Option ℚ
  notes : Option (Option String)
deriving DecidableEq

/-- `Partial<InsertLineItem>`. -/
structure LineItemUpdate where
  invoiceId : Option String
  description : Option String
  quantity : Option ℚ
  rate : Option ℚ
  amount : Option ℚ
deriving DecidableEq

/-- The in-memory state of `MemStorage`: the three `Map`s, as association
lists keyed by the `id` field.  (The source also declares an `invoiceCounter`
field that no method ever reads or writes; it is omitted.) -/
structure Store where
  clients : List Client
  invoices : List Invoice
  lineItems : List LineItem
deriving DecidableEq

/-! ## JS `Map` semantics on association lists -/

/-- `Map.get`: the entry whose key equals `k` (keys are unique; the list
holds at most one). -/
def mget (keyOf : α → String) (m : List α) (k : String) : Option α :=
  m.find? (fun x => keyOf x == k)

/-- `Map.has`. -/
def mcontains (keyOf : α → String) (m : List α) (k : String) : Bool :=
  (mget keyOf m k).isSome

/-- `Map.set`: replace the entry with key `k` if present, else append. -/
def mset (keyOf : α → String) (m : List α) (k : String) (v : α) : List α :=
  if mcontains keyOf m k then m.map (fun x => if keyOf x == k then v else x)
  else m ++ [v]

/-- `Map.delete` (the removed map; the `Bool` result is `mcontains`). -/
def mdelete (keyOf : α → String) (m : List α) (k : String) : List α :=
  m.filter (fun x => !(keyOf x == k))

/-! ## The storage operations (`MemStorage`) -/

/-- `getClient(id)`. -/
def getClient (st : Store) (id : String) : Option Client :=
  mget (·.id) st.clients id

/-- `getLineItemsByInvoiceId(invoiceId)`. -/
def getLineItemsByInvoiceId (st : Store) (invoiceId : String) : List LineItem :=
  st.lineItems.filter (fun item => item.invoiceId == invoiceId)

/-- `getInvoice(id)`: the invoice together with its line items
(`InvoiceWithLineItems` is modelled as a pair). -/
def getInvoice (st : Store) (id : String) : Option (Invoice × List LineItem) :=
  (mget (·.id) st.invoices id).map (fun inv => (inv, getLineItemsByInvoiceId st id))

/-- `getInvoiceByNumber(invoiceNumber)`. -/
def getInvoiceByNumber (st : Store) (invoiceNumber : String) :
    Option (Invoice × List LineItem) :=
  (st.invoices.find? (fun inv => inv.invoiceNumber == invoiceNumber)).map
    (fun inv => (inv, getLineItemsByInvoiceId st inv.id))

/-- `updateClient(id, clientData)`: object spread over the existing record. -/
def updateClient (st : Store) (id : String) (u : ClientUpdate) :
    Option Client × Store :=
  match mget (·.id) st.clients id with
  | none => (none, st)
  | some existing =>
      let updated : Client :=
        { id := existing.id
          name := u.name.getD existing.name
          email := u.email.getD existing.email
          address := u.address.getD existing.address
          createdAt := existing.createdAt }
      (some updated, { st with clients := mset (·.id) st.clients id updated })

/-- `deleteClient(id)`. -/
def deleteClient (st : Store) (id : String) : Bool × Store :=
  (mcontains (·.id) st.clients id,
   { st with clients := mdelete (·.id) st.clients id })

/-- `createLineItem(insertLineItem)` with the generated UUID passed in as
`newId`.  The source replaces a falsy (`0`) quantity by `1`
(`insertLineItem.quantity || 1`); the string defaults `rate || "0"` and
`amount || "0"` replace the empty string, which no caller in the storage
layer produces. -/
def createLineItem (st : Store) (newId invoiceId description : String)
    (quantity rate amount : ℚ) : LineItem × Store :=
  let item : LineItem :=
    { id := newId
      invoiceId := invoiceId
      description := description
      quantity := if quantity == 0 then 1 else quantity
      rate := rate
      amount := amount }
  (item, { st with lineItems := mset (·.id) st.lineItems newId item })

/-- `updateLineItem(id, lineItemData)`. -/
def updateLineItem (st : Store) (id : String) (u : LineItemUpdate) :
    Option LineItem × Store :=
  match mget (·.id) st.lineItems id with
  | none => (none, st)
  | some existing =>
      let updated : LineItem :=
        { id := existing.id
          invoiceId := u.invoiceId.getD existing.invoiceId
          description := u.description.getD existing.description
          quantity := u.quantity.getD existing.quantity
          rate := u.rate.getD existing.rate
          amount := u.amount.getD existing.amount }
      (some updated, { st with lineItems := mset (·.id) st.lineItems id updated })

/-- `deleteLineItem(id)`. -/
def deleteLineItem (st : Store) (id : String) : Bool × Store :=
  (mcontains (·.id) st.lineItems id,
   { st with lineItems := mdelete (·.id) st.lineItems id })

/-! ## Sequential invoice numbering -/

/-- The `existingNumbers` pipeline of `getNextInvoiceNumber`: keep numbers
starting with `INV-`, apply `parseInt` to the suffix, drop the `NaN`s
(`filterMap id` collapses map-to-`Option` followed by the `!isNaN` filter). -/
def invNumbersOf (numbers : List String) : List Int :=
  ((numbers.filter (fun n => jsStartsWith n "INV-")).map
    (fun n => parseIntM (dropInvTag n))).filterMap id

/-- `existingNumbers.length > 0 ? Math.max(...existingNumbers) : 0`. -/
def maxOr0 : List Int → Int
  | [] => 0
  | x :: xs => xs.foldl max x

/-- The number produced for a given list of existing invoice numbers:
`` `INV-${String(maxNumber + 1).padStart(3, '0')}` ``. -/
def nextNumberOf (numbers : List String) : String :=
  ⟨"INV-".data ++ padStart3 (intToStr (maxOr0 (invNumbersOf numbers) + 1))⟩

/-- `getNextInvoiceNumber()`. -/
def getNextInvoiceNumber (st : Store) : String :=
  nextNumberOf (st.invoices.map (·.invoiceNumber))

/-! ## Invoice creation, update, deletion, statistics -/

/-- The line-item creation loop of `createInvoice`: each request item is
paired with its computed `amount = quantity * rate`; `rate` and `amount` are
stored `toFixed(2)`-rounded.  `itemIds i` is the UUID generated for the
`i`-th created line item. -/
def createItemsLoop (itemIds : Nat → String) (invId : String) (i : Nat) :
    List (CreateItem × ℚ) → Store → List LineItem × Store
  | [], st => ([], st)
  | (item, amount) :: rest, st =>
      let created := createLineItem st (itemIds i) invId item.description
        item.quantity (round2 item.rate) (round2 amount)
      let further := createItemsLoop itemIds invId (i + 1) rest created.2
      (created.1 :: further.1, further.2)

/-- `createInvoice(invoiceData)`, with the UUIDs (`invId`, `itemIds`) and the
timestamp (`now`) supplied by the caller.  Returns the
`InvoiceWithLineItems` result and the new store. -/
def createInvoice (invId : String) (itemIds : Nat → String) (now : Nat)
    (req : CreateInvoiceRequest) (st : Store) :
    (Invoice × List LineItem) × Store :=
  let invoiceNumber := getNextInvoiceNumber st
  let itemsWithAmounts := req.lineItems.map (fun item => (item, item.quantity * item.rate))
  let subtotal := itemsWithAmounts.foldl (fun sum item => sum + item.2) 0
  let taxAmount := subtotal * (req.taxRate / 100)
  let total := subtotal + taxAmount
  let invoice : Invoice :=
    { id := invId
      invoiceNumber := invoiceNumber
      clientId := none
      clientName := req.clientName
      clientEmail := req.clientEmail
      clientAddress := req.clientAddress
      issueDate := req.issueDate
      dueDate := req.dueDate
      status := "draft"
      subtotal := round2 subtotal
      taxRate := round2 req.taxRate
      taxAmount := round2 taxAmount
      total := round2 total
      notes := req.notes
      createdAt := now
      updatedAt := now }
  let st1 : Store := { st with invoices := mset (·.id) st.invoices invId invoice }
  let items := createItemsLoop itemIds invId 0 itemsWithAmounts st1
  ((invoice, items.1), items.2)

/-- `updateInvoice(id, invoiceData)`: object spread over the existing record,
refreshing `updatedAt`; derived fields are NOT recomputed. -/
def updateInvoice (now : Nat) (id : String) (u : InvoiceUpdate) (st : Store) :
    Option Invoice × Store :=
  match mget (·.id) st.invoices id with
  | none => (none, st)
  | some existing =>
      let updated : Invoice :=
        { id := existing.id
          invoiceNumber := u.invoiceNumber.getD existing.invoiceNumber
          clientId := u.clientId.getD existing.clientId
          clientName := u.clientName.getD existing.clientName
          clientEmail := u.clientEmail.getD existing.clientEmail
          clientAddress := u.clientAddress.getD existing.clientAddress
          issueDate := u.issueDate.getD existing.issueDate
          dueDate := u.dueDate.getD existing.dueDate
          status := u.status.getD existing.status
          subtotal := u.subtotal.getD existing.subtotal
          taxRate := u.taxRate.getD existing.taxRate
          taxAmount := u.taxAmount.getD existing.taxAmount
          total := u.total.getD existing.total
          notes := u.notes.getD existing.notes
          createdAt := existing.createdAt
          updatedAt := now }
      (some updated, { st with invoices := mset (·.id) st.invoices id updated })

/-- `deleteInvoice(id)`: first delete every line item whose `invoiceId`
references the invoice (each by its own id), then delete the invoice. -/
def deleteInvoice (st : Store) (id : String) : Bool × Store :=
  let items := getLineItemsByInvoiceId st id
  let st1 := items.foldl
    (fun s item => { s with lineItems := mdelete (·.id) s.lineItems item.id }) st
  (mcontains (·.id) st1.invoices id,
   { st1 with invoices := mdelete (·.id) st1.invoices id })

/-- The result record of `getInvoiceStats()`. -/
structure Stats where
  totalInvoices : Nat
  totalRevenue : ℚ
  pendingInvoices : Nat
  overdueInvoices : Nat
deriving DecidableEq

/-- `getInvoiceStats()`: `parseFloat` of a stored total is the identity in
the model, and the final `toFixed(2)` is `round2`. -/
def getInvoiceStats (st : Store) : Stats :=
  { totalInvoices := st.invoices.length
    totalRevenue := round2 ((st.invoices.filter (fun inv => inv.status == "paid")).foldl
      (fun sum inv => sum + inv.total) 0)
    pendingInvoices := (st.invoices.filter (fun inv => inv.status == "sent")).length
    overdueInvoices := (st.invoices.filter (fun inv => inv.status == "overdue")).length }

/-! ## Specification-side definitions and concrete fixtures -/

/-- Written from the spec and claim C3's words, for refinement comparison
with `getNextInvoiceNumber`: scan the numbers matching the `INV-` prefix,
parse the numeric suffix, take the maximum (0 if none exist), and return
max+1 formatted with the prefix and zero-padding to 3 digits. -/
def nextNumberSpec (numbers : List String) : String :=
  let suffixNums := numbers.filterMap
    (fun n => if jsStartsWith n "INV-" then parseIntM ⟨n.data.drop 4⟩ else none)
  ⟨"INV-".data ++ padStart3 (intToStr ((suffixNums.max?.getD 0) + 1))⟩

/-- "Of the form `INV-NNN`": the `INV-` prefix followed by a nonempty
all-digit suffix of length at least 3 (zero-padded to 3 digits). -/
def invoiceNumberForm (s : String) : Bool :=
  jsStartsWith s "INV-" && !(s.data.drop 4).isEmpty &&
    (s.data.drop 4).all Char.isDigit && decide (3 ≤ (s.data.drop 4).length)

/-- The empty store (`MemStorage` after construction). -/
def emptyStore : Store := ⟨[], [], []⟩

/-- An invoice fixture with the given number, status and amount
(`subtotal = total`, zero tax, so the documented invariant holds whenever
`total` is a two-decimal value). -/
def sampleInvoice (id num status : String) (total : ℚ) : Invoice :=
  { id := id
    invoiceNumber := num
    clientId := none
    clientName := "Acme"
    clientEmail := "acme@example.com"
    clientAddress := none
    issueDate := "2024-01-01"
    dueDate := none
    status := status
    subtotal := total
    taxRate := 0
    taxAmount := 0
    total := total
    notes := none
    createdAt := 0
    updatedAt := 0 }

/-- A line-item fixture attached to the given invoice. -/
def sampleLineItem (id invId : String) : LineItem :=
  ⟨id, invId, "widget", 1, 10, 10⟩

/-- Store with invoices `INV-001` and `INV-003` (a gap at 2). -/
def stGaps : Store :=
  ⟨[], [sampleInvoice "i1" "INV-001" "draft" 0,
        sampleInvoice "i3" "INV-003" "draft" 0], []⟩

/-- Store whose only invoice number has the negative suffix `-5`. -/
def stNeg : Store := ⟨[], [sampleInvoice "i1" "INV--5" "draft" 0], []⟩

/-- Store whose only invoice number is the malformed `INV-5x`. -/
def st5x : Store := ⟨[], [sampleInvoice "i1" "INV-5x" "draft" 0], []⟩

/-- Store with statuses `[paid($100), paid($50), sent, overdue]`. -/
def stStats : Store :=
  ⟨[], [sampleInvoice "i1" "INV-001" "paid" 100,
        sampleInvoice "i2" "INV-002" "paid" 50,
        sampleInvoice "i3" "INV-003" "sent" 70,
        sampleInvoice "i4" "INV-004" "overdue" 30], []⟩

/-- Two invoices, each owning one line item. -/
def stTwo : Store :=
  ⟨[], [sampleInvoice "inv1" "INV-001" "draft" 10,
        sampleInvoice "inv2" "INV-002" "draft" 10],
   [sampleLineItem "li1" "inv1", sampleLineItem "li2" "inv2"]⟩

/-- A store holding a line item that references a nonexistent invoice id
(constructible through the public `createLineItem` operation). -/
def stOrphan : Store := ⟨[], [], [sampleLineItem "li1" "ghost"]⟩

/-- Store holding the invoice that `createInvoice` produces for a single
`$100` line item at tax rate 0 (`subtotal = total = 100`, zero tax). -/
def stC2 : Store := ⟨[], [sampleInvoice "inv1" "INV-001" "draft" 100], []⟩

/-- An update request setting only the `subtotal` field to `999.99`. -/
def updC2 : InvoiceUpdate :=
  ⟨none, none, none, none, none, none, none, none, some (99999 / 100), none,
   none, none, none⟩

/-- A create-invoice request with a single line item of rate `0.004`
(= 1/250) at tax rate 100%. -/
def reqC5 : CreateInvoiceRequest :=
  ⟨"Acme", "acme@example.com", none, "2024-01-01", none, 100, none,
   [⟨"widget", 1, 1 / 250⟩]⟩

/-- A fixed id supply for line-item creation in concrete runs. -/
def exIds (i : Nat) : String := ⟨'l' :: 'i' :: natToStr i⟩

/-- The `createInvoice` result for the request `reqC5` (a stored invoice of
the system). -/
def invC5 : Invoice := (createInvoice "inv1" exIds 0 reqC5 emptyStore).1.1

/-- An update request with no field present. -/
def updNoneClient : ClientUpdate := ⟨none, none, none⟩

/-- An update request with no field present. -/
def updNoneInvoice : InvoiceUpdate :=
  ⟨none, none, none, none, none, none, none, none, none, none, none, none, none⟩

/-- An update request with no field present. -/
def updNoneLineItem : LineItemUpdate := ⟨none, none, none, none, none⟩

/-! ## Lemmas: rounding -/

theorem round2_eq_div (q : ℚ) (n : ℤ) (h1 : (n : ℚ) ≤ q * 100 + 1 / 2)
    (h2 : q * 100 + 1 / 2 < n + 1) : round2 q = (n : ℚ) / 100 := by
  unfold round2
  rw [round_eq, Int.floor_eq_iff.mpr ⟨h1, by exact_mod_cast h2⟩]

theorem round2_intCast (m : ℤ) : round2 ((m : ℚ)) = (m : ℚ) := by
  unfold round2
  rw [show ((m : ℚ) * 100) = (((m * 100 : ℤ)) : ℚ) by push_cast; ring, round_intCast]
  push_cast
  field_simp

theorem round2_div_100 (m : ℤ) : round2 ((m : ℚ) / 100) = (m : ℚ) / 100 := by
  unfold round2
  rw [div_mul_cancel₀ _ (by norm_num : (100 : ℚ) ≠ 0), round_intCast]

/-! ## Lemmas: folds and sums -/

theorem foldl_add_eq_add_sum (f : α → ℚ) :
    ∀ (l : List α) (a : ℚ), l.foldl (fun s x => s + f x) a = a + (l.map f).sum
  | [], a => by simp
  | x :: xs, a => by
      simp only [List.foldl_cons, List.map_cons, List.sum_cons,
        foldl_add_eq_add_sum f xs]
      ring

/-! ## Lemmas: digits and decimal printing -/

theorem digitVal_digitChar {d : Nat} (h : d < 10) : digitVal (digitChar d) = d := by
  interval_cases d <;> decide

theorem digitChar_isDigit {d : Nat} (h : d < 10) : (digitChar d).isDigit = true := by
  interval_cases d <;> decide

theorem isWhitespace_eq_false_of_isDigit {c : Char} (h : c.isDigit = true) :
    c.isWhitespace = false := by
  by_contra hw
  rw [Bool.not_eq_false] at hw
  simp only [Char.isWhitespace, Bool.or_eq_true, decide_eq_true_eq, or_assoc] at hw
  rcases hw with rfl | rfl | rfl | rfl <;> exact absurd h (by decide)

theorem ne_sign_of_isDigit {c : Char} (h : c.isDigit = true) : c ≠ '-' ∧ c ≠ '+' :=
  ⟨fun e => absurd (e ▸ h) (by decide), fun e => absurd (e ▸ h) (by decide)⟩

theorem digitsToNat_append_singleton (l : List Char) (c : Char) :
    digitsToNat (l ++ [c]) = 10 * digitsToNat l + digitVal c := by
  unfold digitsToNat
  rw [List.foldl_append]
  rfl

theorem digitsToNat_cons_zero (l : List Char) :
    digitsToNat ('0' :: l) = digitsToNat l := by
  unfold digitsToNat
  rw [List.foldl_cons]
  norm_num [digitVal]
  rfl

theorem digitsToNat_replicate_zero_append (k : Nat) (l : List Char) :
    digitsToNat (List.replicate k '0' ++ l) = digitsToNat l := by
  induction k with
  | zero => rfl
  | succ k ih => rw [List.replicate_succ, List.cons_append, digitsToNat_cons_zero, ih]

theorem natToStrAux_spec :
    ∀ (fuel n : Nat), n < fuel →
      (natToStrAux fuel n).all Char.isDigit = true ∧ natToStrAux fuel n ≠ [] ∧
      digitsToNat (natToStrAux fuel n) = n ∧
      (10 ≤ n → 2 ≤ (natToStrAux fuel n).length)
  | 0, n, h => absurd h (by omega)
  | fuel + 1, n, h => by
      unfold natToStrAux
      by_cases h10 : n < 10
      · simp only [if_pos h10]
        refine ⟨by simp [digitChar_isDigit h10], by simp, ?_, by omega⟩
        simp [digitsToNat, digitVal_digitChar h10]
      · have hrec := natToStrAux_spec fuel (n / 10) (by omega)
        simp only [if_neg h10]
        refine ⟨?_, by simp, ?_, ?_⟩
        · rw [List.all_append]
          simp [hrec.1, digitChar_isDigit (Nat.mod_lt n (by omega))]
        · rw [digitsToNat_append_singleton, hrec.2.2.1,
            digitVal_digitChar (Nat.mod_lt n (by omega))]
          omega
        · intro _
          rw [List.length_append]
          have := List.length_pos.mpr hrec.2.1
          simp
          omega

theorem natToStr_all_digit (n : Nat) : (natToStr n).all Char.isDigit = true :=
  (natToStrAux_spec (n + 1) n (by omega)).1

theorem natToStr_ne_nil (n : Nat) : natToStr n ≠ [] :=
  (natToStrAux_spec (n + 1) n (by omega)).2.1

theorem digitsToNat_natToStr (n : Nat) : digitsToNat (natToStr n) = n :=
  (natToStrAux_spec (n + 1) n (by omega)).2.2.1

theorem natToStr_length2 {n : Nat} (h : 10 ≤ n) : 2 ≤ (natToStr n).length :=
  (natToStrAux_spec (n + 1) n (by omega)).2.2.2 h

theorem natToStr_of_lt_10 {n : Nat} (h : n < 10) : natToStr n = [digitChar n] := by
  unfold natToStr natToStrAux
  simp [h]

/-! ## Lemmas: `parseInt` -/

theorem takeWhile_eq_self_of_all {p : Char → Bool} :
    ∀ {l : List Char}, l.all p = true → l.takeWhile p = l
  | [], _ => rfl
  | c :: cs, h => by
      rw [List.all_cons, Bool.and_eq_true] at h
      rw [List.takeWhile_cons, if_pos h.1, takeWhile_eq_self_of_all h.2]

theorem dropWhile_ws_of_digits {l : List Char} (h : l.all Char.isDigit = true) :
    l.dropWhile Char.isWhitespace = l := by
  cases l with
  | nil => rfl
  | cons c cs =>
      rw [List.all_cons, Bool.and_eq_true] at h
      rw [List.dropWhile_cons, if_neg]
      rw [isWhitespace_eq_false_of_isDigit h.1]
      simp

theorem parseNatSeg_of_digits {l : List Char} (hd : l.all Char.isDigit = true)
    (hn : l ≠ []) : parseNatSeg l = some (digitsToNat l) := by
  unfold parseNatSeg
  rw [takeWhile_eq_self_of_all hd]
  simp [List.isEmpty_iff, hn]

theorem parseIntCore_of_digits {l : List Char} (hd : l.all Char.isDigit = true)
    (hn : l ≠ []) : parseIntCore l = some ((digitsToNat l : Nat) : Int) := by
  cases l with
  | nil => exact absurd rfl hn
  | cons c cs =>
      rw [List.all_cons, Bool.and_eq_true] at hd
      have hs := ne_sign_of_isDigit hd.1
      unfold parseIntCore
      rw [if_neg (by simp [hs.1]), if_neg (by simp [hs.2]),
        parseNatSeg_of_digits (by simp [List.all_cons, hd.1, hd.2]) (by simp)]
      rfl

theorem parseIntM_of_digits {l : List Char} (hd : l.all Char.isDigit = true)
    (hn : l ≠ []) : parseIntM ⟨l⟩ = some ((digitsToNat l : Nat) : Int) := by
  unfold parseIntM
  show parseIntCore (l.dropWhile Char.isWhitespace) = _
  rw [dropWhile_ws_of_digits hd, parseIntCore_of_digits hd hn]

/-! ## Lemmas: `padStart3` -/

theorem padStart3_all_digit {l : List Char} (h : l.all Char.isDigit = true) :
    (padStart3 l).all Char.isDigit = true := by
  unfold padStart3
  split
  · exact h
  · rw [List.all_append, Bool.and_eq_true]
    refine ⟨?_, h⟩
    simp only [List.all_eq_true]
    intro c hc
    rw [List.eq_of_mem_replicate hc]
    decide

theorem padStart3_ne_nil {l : List Char} (h : l ≠ []) : padStart3 l ≠ [] := by
  unfold padStart3
  split
  · exact h
  · simp [h]

theorem three_le_padStart3_length (l : List Char) : 3 ≤ (padStart3 l).length := by
  unfold padStart3
  split
  · omega
  · rw [List.length_append, List.length_replicate]
    omega

theorem digitsToNat_padStart3_natToStr (n : Nat) :
    digitsToNat (padStart3 (natToStr n)) = n := by
  unfold padStart3
  split
  · exact digitsToNat_natToStr n
  · rw [digitsToNat_replicate_zero_append, digitsToNat_natToStr]

theorem parseIntM_padStart3_natToStr (n : Nat) :
    parseIntM ⟨padStart3 (natToStr n)⟩ = some ((n : Nat) : Int) := by
  rw [parseIntM_of_digits (padStart3_all_digit (natToStr_all_digit n))
    (padStart3_ne_nil (natToStr_ne_nil n)), digitsToNat_padStart3_natToStr]

theorem parseIntM_padStart3_intToStr (i : Int) :
    parseIntM ⟨padStart3 (intToStr i)⟩ =
      some (if 0 ≤ i then i else if -9 ≤ i then 0 else i) := by
  by_cases h0 : 0 ≤ i
  · rw [if_pos h0]
    unfold intToStr
    rw [if_neg (by omega)]
    rw [parseIntM_padStart3_natToStr]
    congr 1
    omega
  · rw [if_neg h0]
    by_cases h9 : -9 ≤ i
    · rw [if_pos h9]
      have habs : i.natAbs < 10 := by omega
      unfold intToStr
      rw [if_pos (by omega), natToStr_of_lt_10 habs]
      unfold padStart3
      rw [if_neg (by simp)]
      show parseIntM ⟨['0', '-', digitChar i.natAbs]⟩ = some 0
      unfold parseIntM
      show parseIntCore (List.dropWhile Char.isWhitespace
        ['0', '-', digitChar i.natAbs]) = some 0
      rw [show List.dropWhile Char.isWhitespace ['0', '-', digitChar i.natAbs]
          = ['0', '-', digitChar i.natAbs] by
        rw [List.dropWhile_cons, if_neg (by decide)]]
      unfold parseIntCore
      rw [if_neg (by simp), if_neg (by simp)]
      unfold parseNatSeg
      rw [show List.takeWhile Char.isDigit ['0', '-', digitChar i.natAbs]
          = ['0'] by
        rw [List.takeWhile_cons, if_pos (by decide), List.takeWhile_cons,
          if_neg (by decide)]]
      decide
    · rw [if_neg h9]
      have habs : 10 ≤ i.natAbs := by omega
      unfold intToStr
      rw [if_pos (by omega)]
      unfold padStart3
      rw [if_pos (by
        rw [List.length_cons]
        have := natToStr_length2 habs
        omega)]
      unfold parseIntM
      show parseIntCore (List.dropWhile Char.isWhitespace
        ('-' :: natToStr i.natAbs)) = _
      rw [List.dropWhile_cons, if_neg (by decide)]
      unfold parseIntCore
      rw [if_pos (show ('-' :: natToStr i.natAbs).head? = some '-' by simp)]
      show (parseNatSeg (natToStr i.natAbs)).map _ = _
      rw [parseNatSeg_of_digits (natToStr_all_digit _) (natToStr_ne_nil _),
        digitsToNat_natToStr]
      show some (-(i.natAbs : Int)) = some i
      congr 1
      omega

/-! ## Lemmas: the maximum scan -/

theorem foldl_max_bounds :
    ∀ (l : List Int) (a : Int), a ≤ l.foldl max a ∧ ∀ x ∈ l, x ≤ l.foldl max a
  | [], a => ⟨le_refl a, by simp⟩
  | y :: ys, a => by
      have ih := foldl_max_bounds ys (max a y)
      rw [List.foldl_cons]
      refine ⟨le_trans (le_max_left a y) ih.1, ?_⟩
      intro x hx
      rcases List.mem_cons.mp hx with rfl | hx
      · exact le_trans (le_max_right a x) ih.1
      · exact ih.2 x hx

theorem le_maxOr0 {l : List Int} {x : Int} (h : x ∈ l) : x ≤ maxOr0 l := by
  cases l with
  | nil => exact absurd h (by simp)
  | cons y ys =>
      rcases List.mem_cons.mp h with rfl | hx
      · exact (foldl_max_bounds ys x).1
      · exact (foldl_max_bounds ys y).2 x hx

theorem maxOr0_eq_max? (l : List Int) : maxOr0 l = l.max?.getD 0 := by
  cases l <;> rfl

theorem mem_invNumbersOf {numbers : List String} {s : String} {v : Int}
    (hs : s ∈ numbers) (hp : jsStartsWith s "INV-" = true)
    (hv : parseIntM (dropInvTag s) = some v) : v ∈ invNumbersOf numbers := by
  unfold invNumbersOf
  rw [List.mem_filterMap]
  exact ⟨some v, List.mem_map.mpr ⟨s, List.mem_filter.mpr ⟨hs, hp⟩, hv⟩, rfl⟩

/-! ## Lemmas: the produced invoice number -/

theorem jsStartsWith_inv_append (x : List Char) :
    jsStartsWith ⟨"INV-".data ++ x⟩ "INV-" = true := by
  unfold jsStartsWith
  rw [List.isPrefixOf_iff_prefix]
  show "INV-".data <+: "INV-".data ++ x
  exact List.prefix_append _ _

theorem drop4_inv_append (x : List Char) : ("INV-".data ++ x).drop 4 = x := rfl

theorem dropInvTag_inv_append (x : List Char) :
    dropInvTag ⟨"INV-".data ++ x⟩ = ⟨x⟩ := by
  unfold dropInvTag
  rw [if_pos (jsStartsWith_inv_append x)]
  show (⟨("INV-".data ++ x).drop 4⟩ : String) = ⟨x⟩
  rw [drop4_inv_append]

theorem nextNumberOf_eq_mk (numbers : List String) :
    nextNumberOf numbers =
      ⟨"INV-".data ++ padStart3 (intToStr (maxOr0 (invNumbersOf numbers) + 1))⟩ :=
  rfl

theorem nextNumberOf_not_mem (numbers : List String) :
    nextNumberOf numbers ∉ numbers := by
  intro hmem
  have hv := mem_invNumbersOf hmem
    (jsStartsWith_inv_append (padStart3 (intToStr (maxOr0 (invNumbersOf numbers) + 1))))
    (by
      rw [nextNumberOf_eq_mk, dropInvTag_inv_append]
      exact parseIntM_padStart3_intToStr (maxOr0 (invNumbersOf numbers) + 1))
  have hle := le_maxOr0 hv
  split_ifs at hle <;> omega

theorem invoiceNumberForm_nextNumberOf (numbers : List String)
    (h : 0 ≤ maxOr0 (invNumbersOf numbers)) :
    invoiceNumberForm (nextNumberOf numbers) = true := by
  have hdigits : intToStr (maxOr0 (invNumbersOf numbers) + 1) =
      natToStr (maxOr0 (invNumbersOf numbers) + 1).toNat := by
    unfold intToStr
    rw [if_neg (by omega)]
  unfold invoiceNumberForm
  rw [nextNumberOf_eq_mk]
  show (jsStartsWith ⟨"INV-".data ++ _⟩ "INV-" &&
    !(("INV-".data ++ _).drop 4).isEmpty &&
    (("INV-".data ++ _).drop 4).all Char.isDigit &&
    decide (3 ≤ (("INV-".data ++ _).drop 4).length)) = true
  rw [jsStartsWith_inv_append, drop4_inv_append, hdigits]
  simp only [Bool.true_and, Bool.and_eq_true, Bool.not_eq_true,
    decide_eq_true_eq]
  refine ⟨⟨?_, padStart3_all_digit (natToStr_all_digit _)⟩,
    three_le_padStart3_length _⟩
  simp [List.isEmpty_iff, padStart3_ne_nil (natToStr_ne_nil _)]

theorem filterMap_id_map_filter (p : String → Bool) (f : String → Option Int) :
    ∀ l : List String,
      List.filterMap id ((l.filter p).map f)
        = l.filterMap (fun n => if p n then f n else none)
  | [] => rfl
  | x :: xs => by
      cases hp : p x with
      | true =>
          cases hf : f x with
          | none =>
              simp [List.filter_cons, hp, List.filterMap_cons, hf,
                filterMap_id_map_filter p f xs]
          | some v =>
              simp [List.filter_cons, hp, List.filterMap_cons, hf,
                filterMap_id_map_filter p f xs]
      | false =>
          simp [List.filter_cons, hp, List.filterMap_cons,
            filterMap_id_map_filter p f xs]

theorem invNumbersOf_eq_filterMap (numbers : List String) :
    invNumbersOf numbers = numbers.filterMap
      (fun n => if jsStartsWith n "INV-" then parseIntM ⟨n.data.drop 4⟩ else none) := by
  unfold invNumbersOf
  rw [filterMap_id_map_filter]
  congr 1
  funext n
  by_cases hp : jsStartsWith n "INV-" = true
  · rw [if_pos hp, if_pos hp]
    unfold dropInvTag
    rw [if_pos hp]
  · rw [if_neg hp, if_neg hp]

/-! ## Lemmas: association-list map operations -/

theorem mget_eq_none {keyOf : α → String} {m : List α} {k : String}
    (h : ∀ x ∈ m, keyOf x ≠ k) : mget keyOf m k = none := by
  unfold mget
  rw [List.find?_eq_none]
  intro x hx
  simpa using h x hx

theorem mget_nil_eq_none (keyOf : α → String) (k : String) :
    mget keyOf ([] : List α) k = none := rfl

theorem find?_map_set (keyOf : α → String) (k : String) (v : α)
    (hv : keyOf v = k) :
    ∀ m : List α, mcontains keyOf m k = true →
      List.find? (fun x => keyOf x == k)
        (m.map (fun x => if keyOf x == k then v else x)) = some v
  | [], h => absurd h (by simp [mcontains, mget])
  | x :: xs, h => by
      cases hx : (keyOf x == k) with
      | true =>
          rw [List.map_cons, if_pos hx]
          simp only [List.find?_cons, hv, beq_self_eq_true, cond_true]
      | false =>
          rw [List.map_cons, if_neg (by rw [hx]; exact Bool.false_ne_true)]
          simp only [List.find?_cons, hx, cond_false]
          refine find?_map_set keyOf k v hv xs ?_
          unfold mcontains mget at h ⊢
          simp only [List.find?_cons, hx, cond_false] at h
          exact h

theorem find?_append_singleton (p : α → Bool) (v : α) :
    ∀ m : List α, m.find? p = none → (m ++ [v]).find? p = [v].find? p
  | [], _ => rfl
  | x :: xs, h => by
      have hx : p x = false := by
        cases hpx : p x with
        | false => rfl
        | true =>
            simp only [List.find?_cons, hpx, cond_true] at h
            exact absurd h (by simp)
      simp only [List.find?_cons, hx, cond_false] at h
      rw [List.cons_append]
      simp only [List.find?_cons, hx, cond_false]
      exact find?_append_singleton p v xs h

theorem mget_mset_self (keyOf : α → String) (m : List α) (k : String) (v : α)
    (hv : keyOf v = k) : mget keyOf (mset keyOf m k v) k = some v := by
  unfold mset
  split
  · exact find?_map_set keyOf k v hv m (by assumption)
  · unfold mget
    have hnone : m.find? (fun x => keyOf x == k) = none := by
      rename_i hc
      unfold mcontains mget at hc
      cases hfind : m.find? (fun x => keyOf x == k) with
      | none => rfl
      | some y => rw [hfind] at hc; exact absurd (by simp) hc
    rw [find?_append_singleton _ _ m hnone]
    simp only [List.find?_cons, hv, beq_self_eq_true, cond_true]

theorem mget_mdelete_self (keyOf : α → String) (m : List α) (k : String) :
    mget keyOf (mdelete keyOf m k) k = none := by
  unfold mget mdelete
  rw [List.find?_eq_none]
  intro x hx
  have hmem := (List.mem_filter.mp hx).2
  simp only [Bool.not_eq_true'] at hmem
  rw [hmem]
  simp

theorem mdelete_eq_self {keyOf : α → String} {m : List α} {k : String}
    (h : ∀ x ∈ m, keyOf x ≠ k) : mdelete keyOf m k = m := by
  unfold mdelete
  rw [List.filter_eq_self]
  intro x hx
  simp [h x hx]

theorem mcontains_eq_false {keyOf : α → String} {m : List α} {k : String}
    (h : mget keyOf m k = none) : mcontains keyOf m k = false := by
  unfold mcontains
  rw [h]
  rfl

/-! ## Lemmas: the `deleteInvoice` loop -/

theorem delLoop_clients :
    ∀ (items : List LineItem) (st : Store),
      (items.foldl (fun s item =>
        { s with lineItems := mdelete (·.id) s.lineItems item.id }) st).clients
        = st.clients
  | [], _ => rfl
  | it :: rest, st => by
      rw [List.foldl_cons]
      exact delLoop_clients rest _

theorem delLoop_invoices :
    ∀ (items : List LineItem) (st : Store),
      (items.foldl (fun s item =>
        { s with lineItems := mdelete (·.id) s.lineItems item.id }) st).invoices
        = st.invoices
  | [], _ => rfl
  | it :: rest, st => by
      rw [List.foldl_cons]
      exact delLoop_invoices rest _

theorem delLoop_lineItems :
    ∀ (items : List LineItem) (st : Store),
      (items.foldl (fun s item =>
        { s with lineItems := mdelete (·.id) s.lineItems item.id }) st).lineItems
        = st.lineItems.filter
            (fun x => !(items.any (fun item => x.id == item.id)))
  | [], st => by simp
  | it :: rest, st => by
      rw [List.foldl_cons, delLoop_lineItems rest _]
      show (mdelete (·.id) st.lineItems it.id).filter _ = _
      unfold mdelete
      rw [List.filter_filter]
      refine List.filter_congr ?_
      intro x _
      simp only [List.any_cons, Bool.not_or]
      exact Bool.and_comm _ _

/-! ## Lemmas: the `createInvoice` line-item loop -/

theorem createItemsLoop_invoices :
    ∀ (itemIds : Nat → String) (invId : String) (i : Nat)
      (pairs : List (CreateItem × ℚ)) (st : Store),
      (createItemsLoop itemIds invId i pairs st).2.invoices = st.invoices
  | _, _, _, [], _ => rfl
  | itemIds, invId, i, (item, amount) :: rest, st => by
      show (createItemsLoop itemIds invId (i + 1) rest _).2.invoices = _
      rw [createItemsLoop_invoices itemIds invId (i + 1) rest _]
      rfl

theorem createItemsLoop_map_amount :
    ∀ (itemIds : Nat → String) (invId : String) (i : Nat)
      (pairs : List (CreateItem × ℚ)) (st : Store),
      (createItemsLoop itemIds invId i pairs st).1.map (fun li => li.amount)
        = pairs.map (fun p => round2 p.2)
  | _, _, _, [], _ => rfl
  | itemIds, invId, i, (item, amount) :: rest, st => by
      show ((createLineItem st (itemIds i) invId item.description item.quantity
          (round2 item.rate) (round2 amount)).1 ::
        (createItemsLoop itemIds invId (i + 1) rest _).1).map (fun li => li.amount)
        = _
      rw [List.map_cons, createItemsLoop_map_amount itemIds invId (i + 1) rest _]
      rfl

/-! ## Lemmas: `createInvoice` field values -/

theorem createInvoice_subtotal (invId : String) (itemIds : Nat → String)
    (now : Nat) (req : CreateInvoiceRequest) (st : Store) :
    (createInvoice invId itemIds now req st).1.1.subtotal
      = round2 ((req.lineItems.map (fun it => it.quantity * it.rate)).sum) := by
  show round2 ((req.lineItems.map (fun item =>
    (item, item.quantity * item.rate))).foldl (fun sum item => sum + item.2) 0) = _
  rw [foldl_add_eq_add_sum (fun (p : CreateItem × ℚ) => p.2), List.map_map]
  simp [Function.comp_def]

theorem createInvoice_taxAmount (invId : String) (itemIds : Nat → String)
    (now : Nat) (req : CreateInvoiceRequest) (st : Store) :
    (createInvoice invId itemIds now req st).1.1.taxAmount
      = round2 (((req.lineItems.map (fun it => it.quantity * it.rate)).sum)
          * (req.taxRate / 100)) := by
  show round2 (((req.lineItems.map (fun item =>
    (item, item.quantity * item.rate))).foldl (fun sum item => sum + item.2) 0)
      * (req.taxRate / 100)) = _
  rw [foldl_add_eq_add_sum (fun (p : CreateItem × ℚ) => p.2), List.map_map]
  simp [Function.comp_def]

theorem createInvoice_total (invId : String) (itemIds : Nat → String)
    (now : Nat) (req : CreateInvoiceRequest) (st : Store) :
    (createInvoice invId itemIds now req st).1.1.total
      = round2 (((req.lineItems.map (fun it => it.quantity * it.rate)).sum)
          + ((req.lineItems.map (fun it => it.quantity * it.rate)).sum)
            * (req.taxRate / 100)) := by
  show round2 (((req.lineItems.map (fun item =>
    (item, item.quantity * item.rate))).foldl (fun sum item => sum + item.2) 0)
      + ((req.lineItems.map (fun item =>
    (item, item.quantity * item.rate))).foldl (fun sum item => sum + item.2) 0)
      * (req.taxRate / 100)) = _
  rw [foldl_add_eq_add_sum (fun (p : CreateItem × ℚ) => p.2), List.map_map]
  simp [Function.comp_def]

theorem createInvoice_taxRate (invId : String) (itemIds : Nat → String)
    (now : Nat) (req : CreateInvoiceRequest) (st : Store) :
    (createInvoice invId itemIds now req st).1.1.taxRate = round2 req.taxRate :=
  rfl

theorem createInvoice_status (invId : String) (itemIds : Nat → String)
    (now : Nat) (req : CreateInvoiceRequest) (st : Store) :
    (createInvoice invId itemIds now req st).1.1.status = "draft" := rfl

theorem createInvoice_clientId (invId : String) (itemIds : Nat → String)
    (now : Nat) (req : CreateInvoiceRequest) (st : Store) :
    (createInvoice invId itemIds now req st).1.1.clientId = none := rfl

theorem createInvoice_amounts (invId : String) (itemIds : Nat → String)
    (now : Nat) (req : CreateInvoiceRequest) (st : Store) :
    (createInvoice invId itemIds now req st).1.2.map (fun li => li.amount)
      = req.lineItems.map (fun it => round2 (it.quantity * it.rate)) := by
  show (createItemsLoop itemIds invId 0 (req.lineItems.map (fun item =>
    (item, item.quantity * item.rate))) _).1.map (fun li => li.amount) = _
  rw [createItemsLoop_map_amount, List.map_map]
  simp [Function.comp_def]

theorem createInvoice_mget (invId : String) (itemIds : Nat → String)
    (now : Nat) (req : CreateInvoiceRequest) (st : Store) :
    mget (·.id) (createInvoice invId itemIds now req st).2.invoices invId
      = some (createInvoice invId itemIds now req st).1.1 := by
  show mget (·.id) (createItemsLoop itemIds invId 0 _ _).2.invoices invId = _
  rw [createItemsLoop_invoices]
  exact mget_mset_self _ _ _ _ rfl

/-! ## Lemmas: statistics -/

theorem getInvoiceStats_eq (st : Store) :
    getInvoiceStats st =
      ⟨st.invoices.length,
       round2 (((st.invoices.filter (fun inv => inv.status == "paid")).map
         (fun inv => inv.total)).sum),
       st.invoices.countP (fun inv => inv.status == "sent"),
       st.invoices.countP (fun inv => inv.status == "overdue")⟩ := by
  unfold getInvoiceStats
  rw [foldl_add_eq_add_sum (fun (inv : Invoice) => inv.total),
    List.countP_eq_length_filter, List.countP_eq_length_filter]
  simp

/-! ## Lemmas: `deleteInvoice` in closed form, concrete rounding values -/

theorem deleteInvoice_eq (st : Store) (id : String) :
    deleteInvoice st id =
      (mcontains (fun i => i.id) st.invoices id,
       ⟨st.clients, mdelete (fun i => i.id) st.invoices id,
        st.lineItems.filter (fun x => !((getLineItemsByInvoiceId st id).any
          (fun item => x.id == item.id)))⟩) := by
  simp only [deleteInvoice]
  rw [delLoop_invoices, delLoop_clients, delLoop_lineItems]

theorem round2_99999c : round2 ((99999 : ℚ) / 100) = (99999 : ℚ) / 100 := by
  have := round2_div_100 99999
  push_cast at this
  exact this

theorem round2_100c : round2 (100 : ℚ) = 100 := by
  have := round2_intCast 100
  push_cast at this
  exact this

theorem round2_150c : round2 (150 : ℚ) = 150 := by
  have := round2_intCast 150
  push_cast at this
  exact this

theorem round2_0c : round2 (0 : ℚ) = 0 := by
  have := round2_intCast 0
  push_cast at this
  exact this

/-! ## The claims -/

/-- C1: for every create-invoice request, `createInvoice` computes each line
item's amount as quantity × rate, the subtotal as the sum of all item
amounts, the tax amount as subtotal × (taxRate / 100) and the total as
subtotal + taxAmount, and rounds each monetary output to two decimals only
at the point of storage (each stored field is `round2` of the exact
expression; no rounding occurs inside the summation). -/
theorem claim_C1_createInvoice_totals (invId : String) (itemIds : Nat → String)
    (now : Nat) (req : CreateInvoiceRequest) (st : Store) :
    (createInvoice invId itemIds now req st).1.1.subtotal
        = round2 ((req.lineItems.map (fun it => it.quantity * it.rate)).sum) ∧
    (createInvoice invId itemIds now req st).1.1.taxAmount
        = round2 (((req.lineItems.map (fun it => it.quantity * it.rate)).sum)
            * (req.taxRate / 100)) ∧
    (createInvoice invId itemIds now req st).1.1.total
        = round2 (((req.lineItems.map (fun it => it.quantity * it.rate)).sum)
            + ((req.lineItems.map (fun it => it.quantity * it.rate)).sum)
              * (req.taxRate / 100)) ∧
    (createInvoice invId itemIds now req st).1.2.map (fun li => li.amount)
        = req.lineItems.map (fun it => round2 (it.quantity * it.rate)) ∧
    mget (fun i => i.id) (createInvoice invId itemIds now req st).2.invoices invId
        = some (createInvoice invId itemIds now req st).1.1 :=
  ⟨createInvoice_subtotal invId itemIds now req st,
   createInvoice_taxAmount invId itemIds now req st,
   createInvoice_total invId itemIds now req st,
   createInvoice_amounts invId itemIds now req st,
   createInvoice_mget invId itemIds now req st⟩

/-- C2 counterexample: the invariant `total = round2(subtotal + taxAmount)`
is NOT preserved by every operation: starting from a store holding the
invoice `createInvoice` produces for one $100 item at tax rate 0
(subtotal 100, tax 0, total 100), `updateInvoice` with a request that sets
only `subtotal := 999.99` yields a stored invoice whose total is still 100
while `round2(subtotal + taxAmount)` is 999.99. -/
theorem claim_C2_counterexample :
    ((updateInvoice 1 "inv1" updC2 stC2).1.map (fun i => i.total)) = some 100 ∧
    ((updateInvoice 1 "inv1" updC2 stC2).1.map
      (fun i => round2 (i.subtotal + i.taxAmount))) = some (99999 / 100) ∧
    (100 : ℚ) ≠ 99999 / 100 := by
  refine ⟨?_, ?_, by norm_num⟩
  · simp [updateInvoice, mget, stC2, sampleInvoice, updC2, List.find?]
  · simp [updateInvoice, mget, stC2, sampleInvoice, updC2, List.find?]
    exact round2_99999c

/-- C2 amended: the invariant holds for invoices as established by
`createInvoice` — with the exact (unrounded) subtotal `S` as the inner term:
`taxAmount = round2 (S * taxRate / 100)` and
`total = round2 (S + S * taxRate / 100)`; it is not an invariant preserved by
`updateInvoice`, which overwrites stored fields without recomputation. -/
theorem claim_C2_amended (invId : String) (itemIds : Nat → String)
    (now : Nat) (req : CreateInvoiceRequest) (st : Store) :
    (createInvoice invId itemIds now req st).1.1.taxAmount
        = round2 (((req.lineItems.map (fun it => it.quantity * it.rate)).sum)
            * (req.taxRate / 100)) ∧
    (createInvoice invId itemIds now req st).1.1.total
        = round2 (((req.lineItems.map (fun it => it.quantity * it.rate)).sum)
            + ((req.lineItems.map (fun it => it.quantity * it.rate)).sum)
              * (req.taxRate / 100)) :=
  ⟨createInvoice_taxAmount invId itemIds now req st,
   createInvoice_total invId itemIds now req st⟩

/-- C3: `getNextInvoiceNumber` scans the numbers with the `INV-` prefix,
parses the numeric suffix, takes the maximum (0 if none) and returns max+1
with the `INV-` prefix zero-padded to 3 digits (stated as equality with the
specification-side `nextNumberSpec`); with no invoices it returns `INV-001`,
and with `INV-001` and `INV-003` it returns `INV-004` (gaps ignored). -/
theorem claim_C3_nextNumber_algorithm :
    (∀ st : Store, getNextInvoiceNumber st
        = nextNumberSpec (st.invoices.map (fun inv => inv.invoiceNumber))) ∧
    getNextInvoiceNumber emptyStore = "INV-001" ∧
    getNextInvoiceNumber stGaps = "INV-004" := by
  refine ⟨?_, by decide, by decide⟩
  intro st
  unfold getNextInvoiceNumber nextNumberOf nextNumberSpec
  rw [invNumbersOf_eq_filterMap, maxOr0_eq_max?]

/-- C4 counterexample: in a store whose only invoice number is `INV--5`
(storable via `updateInvoice`, whose payload may set `invoiceNumber` to any
string), `parseInt` reads the suffix as −5, so the next number is computed
as `String(-4).padStart(3,'0')`, giving `INV-0-4` — not of the form
`INV-NNN`. -/
theorem claim_C4_counterexample :
    getNextInvoiceNumber stNeg = "INV-0-4" ∧
    invoiceNumberForm "INV-0-4" = false := by decide

/-- C4 amended: whenever the maximum parsed suffix is nonnegative (which
holds in every store whose invoice numbers were produced by the system
itself), the returned string is of the form `INV-NNN` (all-digit suffix,
zero-padded to at least 3 digits); and in EVERY store state the returned
string differs from every invoice number already present. -/
theorem claim_C4_amended (st : Store) :
    (0 ≤ maxOr0 (invNumbersOf (st.invoices.map (fun inv => inv.invoiceNumber))) →
      invoiceNumberForm (getNextInvoiceNumber st) = true) ∧
    ∀ inv ∈ st.invoices, getNextInvoiceNumber st ≠ inv.invoiceNumber := by
  constructor
  · intro h
    exact invoiceNumberForm_nextNumberOf _ h
  · intro inv hinv heq
    exact nextNumberOf_not_mem (st.invoices.map (fun inv => inv.invoiceNumber))
      (by
        rw [show nextNumberOf (st.invoices.map (fun inv => inv.invoiceNumber))
            = getNextInvoiceNumber st from rfl, heq]
        exact List.mem_map_of_mem (fun inv => inv.invoiceNumber) hinv)

/-- C4 witness: in the two-invoice store with `INV-001` and `INV-003` the
produced number has the `INV-NNN` form and is fresh. -/
theorem claim_C4_witness :
    invoiceNumberForm (getNextInvoiceNumber stGaps) = true ∧
    getNextInvoiceNumber stGaps ≠ "INV-003" := by
  constructor
  · exact (claim_C4_amended stGaps).1 (by decide)
  · exact (claim_C4_amended stGaps).2 (sampleInvoice "i3" "INV-003" "draft" 0)
      (by decide)

/-- C5 counterexample: the stored invoice created from a single line item of
rate 0.004 (quantity 1) at tax rate 100% has stored total 0.01
(`round2(0.004 + 0.004)`), while the claim's formula
`round(subtotal + round(subtotal × taxRate / 100))` over the stored fields
(subtotal 0.00, taxRate 100) yields 0.00. -/
theorem claim_C5_counterexample :
    invC5.total = 1 / 100 ∧
    invC5.subtotal = 0 ∧
    invC5.taxRate = 100 ∧
    round2 (invC5.subtotal + round2 (invC5.subtotal * invC5.taxRate / 100)) = 0 ∧
    (1 / 100 : ℚ) ≠ 0 := by
  have hsub : invC5.subtotal = 0 := by
    show (createInvoice "inv1" exIds 0 reqC5 emptyStore).1.1.subtotal = 0
    rw [createInvoice_subtotal]
    simp [reqC5]
    rw [round2_eq_div _ 0 (by norm_num) (by norm_num)]
    norm_num
  refine ⟨?_, hsub, ?_, ?_, by norm_num⟩
  · show (createInvoice "inv1" exIds 0 reqC5 emptyStore).1.1.total = 1 / 100
    rw [createInvoice_total]
    simp [reqC5]
    rw [round2_eq_div _ 1 (by norm_num) (by norm_num)]
    norm_num
  · show (createInvoice "inv1" exIds 0 reqC5 emptyStore).1.1.taxRate = 100
    rw [createInvoice_taxRate]
    simp [reqC5]
    exact round2_100c
  · rw [hsub]
    rw [show (0 : ℚ) * invC5.taxRate / 100 = 0 by ring, round2_0c]
    norm_num [round2_0c]

/-- C5 amended: for every invoice stored by `createInvoice`, the stored
total is `round2` of the exact subtotal plus the exact (unrounded) tax
amount — a single final rounding: `total = round2(S + S * taxRate / 100)`;
there is no inner rounding of the tax term. -/
theorem claim_C5_amended (invId : String) (itemIds : Nat → String)
    (now : Nat) (req : CreateInvoiceRequest) (st : Store) :
    (createInvoice invId itemIds now req st).1.1.total
        = round2 (((req.lineItems.map (fun it => it.quantity * it.rate)).sum)
            + ((req.lineItems.map (fun it => it.quantity * it.rate)).sum)
              * (req.taxRate / 100)) :=
  createInvoice_total invId itemIds now req st

/-- C6 counterexample: `INV-5x` has the `INV-` prefix and a malformed
(non-numeric) suffix, yet it is NOT ignored: `parseInt("5x")` is 5, the
number contributes 5 to the maximum, and the next number becomes `INV-006`
instead of `INV-001`. -/
theorem claim_C6_counterexample :
    jsStartsWith "INV-5x" "INV-" = true ∧
    ("INV-5x".data.drop 4).all Char.isDigit = false ∧
    invNumbersOf (st5x.invoices.map (fun inv => inv.invoiceNumber)) = [5] ∧
    getNextInvoiceNumber st5x = "INV-006" := by decide

/-- C6 amended: an invoice number is excluded from the max computation
exactly when it lacks the `INV-` prefix or its suffix has no parseable
leading integer (`parseInt` yields `NaN`); a malformed suffix that BEGINS
with digits is counted by its leading integer.  In particular `INV-ABC` is
excluded and alone yields `INV-001`. -/
theorem claim_C6_amended :
    (∀ (l1 l2 : List String) (s : String),
      (jsStartsWith s "INV-" = false ∨ parseIntM (dropInvTag s) = none) →
        nextNumberOf (l1 ++ s :: l2) = nextNumberOf (l1 ++ l2)) ∧
    parseIntM (dropInvTag "INV-ABC") = none ∧
    nextNumberOf ["INV-ABC"] = "INV-001" := by
  refine ⟨?_, by decide, by decide⟩
  intro l1 l2 s hs
  have key : invNumbersOf (l1 ++ s :: l2) = invNumbersOf (l1 ++ l2) := by
    unfold invNumbersOf
    rw [List.filter_append, List.filter_append, List.map_append, List.map_append,
      List.filterMap_append, List.filterMap_append]
    congr 1
    by_cases hp : jsStartsWith s "INV-" = true
    · rcases hs with hs | hs
      · exact absurd hp (by simp [hs])
      · simp [List.filter_cons, hp, List.filterMap_cons, hs]
    · simp [List.filter_cons, hp]
  unfold nextNumberOf
  rw [key]

/-- C6 witness: prepending the malformed `INV-ABC` to a store containing
`INV-001` does not change the produced number. -/
theorem claim_C6_witness :
    nextNumberOf ["INV-ABC", "INV-001"] = nextNumberOf ["INV-001"] :=
  claim_C6_amended.1 [] ["INV-001"] "INV-ABC" (Or.inr (by decide))

/-- C7: `deleteInvoice` removes the invoice and every line item referencing
it — afterwards `getInvoice` is `none` and `getLineItemsByInvoiceId` on that
id is empty — while line items of every other invoice are unchanged (the
stored line items have pairwise distinct ids, as the `Map` keys guarantee in
the source). -/
theorem claim_C7_deleteInvoice_cascade (st : Store) (id : String)
    (h : (st.lineItems.map (fun li => li.id)).Nodup) :
    getInvoice (deleteInvoice st id).2 id = none ∧
    getLineItemsByInvoiceId (deleteInvoice st id).2 id = [] ∧
    ∀ j, j ≠ id → getLineItemsByInvoiceId (deleteInvoice st id).2 j
      = getLineItemsByInvoiceId st j := by
  have hst2 : (deleteInvoice st id).2 =
      ⟨st.clients, mdelete (fun i => i.id) st.invoices id,
       st.lineItems.filter (fun x => !((getLineItemsByInvoiceId st id).any
         (fun item => x.id == item.id)))⟩ := by
    rw [deleteInvoice_eq]
  refine ⟨?_, ?_, ?_⟩
  · unfold getInvoice
    rw [hst2]
    show (mget (fun i => i.id) (mdelete (fun i => i.id) st.invoices id) id).map _
      = none
    rw [mget_mdelete_self]
    rfl
  · unfold getLineItemsByInvoiceId
    rw [hst2]
    show (st.lineItems.filter _).filter (fun item => item.invoiceId == id) = []
    rw [List.filter_filter, List.eq_nil_iff_forall_not_mem]
    intro x hx
    rw [List.mem_filter] at hx
    obtain ⟨hxl, hcond⟩ := hx
    rw [Bool.and_eq_true] at hcond
    obtain ⟨hinv, hnotany⟩ := hcond
    have hxitems : x ∈ getLineItemsByInvoiceId st id :=
      List.mem_filter.mpr ⟨hxl, hinv⟩
    have hany : (getLineItemsByInvoiceId st id).any (fun item => x.id == item.id)
        = true := List.any_eq_true.mpr ⟨x, hxitems, by simp⟩
    rw [hany] at hnotany
    exact absurd hnotany (by simp)
  · intro j hj
    unfold getLineItemsByInvoiceId
    rw [hst2]
    show (st.lineItems.filter _).filter (fun item => item.invoiceId == j)
      = st.lineItems.filter (fun item => item.invoiceId == j)
    rw [List.filter_filter]
    refine List.filter_congr ?_
    intro x hxl
    cases hstat : (x.invoiceId == j) with
    | false => simp [hstat]
    | true =>
        have hnoref : (getLineItemsByInvoiceId st id).any
            (fun item => x.id == item.id) = false := by
          rw [List.any_eq_false]
          intro it2 hit2 hbeq
          have hit2m := hit2
          unfold getLineItemsByInvoiceId at hit2m
          rw [List.mem_filter] at hit2m
          obtain ⟨hmem2, hinv2⟩ := hit2m
          have hxid : x.id = it2.id := by simpa using hbeq
          have hxeq : x = it2 := List.inj_on_of_nodup_map h hxl hmem2 hxid
          have hxinv : x.invoiceId = id := by
            rw [hxeq]
            simpa using hinv2
          have hxj : x.invoiceId = j := by simpa using hstat
          exact hj (hxj.symm.trans hxinv)
        simp [hstat, hnoref]

/-- C7 witness: deleting `inv1` from the two-invoice store empties its line
items, makes it unfindable, and leaves the line items of `inv2` unchanged. -/
theorem claim_C7_witness :
    getInvoice (deleteInvoice stTwo "inv1").2 "inv1" = none ∧
    getLineItemsByInvoiceId (deleteInvoice stTwo "inv1").2 "inv1" = [] ∧
    getLineItemsByInvoiceId (deleteInvoice stTwo "inv1").2 "inv2"
      = getLineItemsByInvoiceId stTwo "inv2" := by
  have h := claim_C7_deleteInvoice_cascade stTwo "inv1" (by decide)
  exact ⟨h.1, h.2.1, h.2.2 "inv2" (by decide)⟩

/-- C8: `getInvoiceStats` returns the invoice count, the 2-decimal-rounded
sum of `total` over `paid` invoices, and the counts of `sent` and `overdue`
invoices, as a pure function of the store; on statuses
`[paid($100), paid($50), sent, overdue]` it returns
`(4, 150.00, 1, 1)`. -/
theorem claim_C8_stats :
    (∀ st : Store, getInvoiceStats st =
      ⟨st.invoices.length,
       round2 (((st.invoices.filter (fun inv => inv.status == "paid")).map
         (fun inv => inv.total)).sum),
       st.invoices.countP (fun inv => inv.status == "sent"),
       st.invoices.countP (fun inv => inv.status == "overdue")⟩) ∧
    getInvoiceStats stStats = ⟨4, 150, 1, 1⟩ := by
  refine ⟨getInvoiceStats_eq, ?_⟩
  rw [getInvoiceStats_eq]
  simp [stStats, sampleInvoice]
  norm_num
  exact round2_150c

/-- C9 counterexample: deleting an invoice id that is absent from the store
is NOT a no-op in every state: with a line item referencing the nonexistent
invoice `ghost` (such a state is constructible through the public
`createLineItem` operation), `deleteInvoice "ghost"` returns `false` but
still deletes that line item — the state changes. -/
theorem claim_C9_counterexample :
    (deleteInvoice stOrphan "ghost").1 = false ∧
    (deleteInvoice stOrphan "ghost").2.lineItems = [] ∧
    stOrphan.lineItems ≠ [] := by decide

/-- C9 amended: for an absent id, lookups return `none`; updates return
`none` and leave the store unchanged; `deleteClient` and `deleteLineItem`
return `false` and leave the store unchanged; `deleteInvoice` returns
`false` and leaves the clients and invoices unchanged, and leaves the whole
store unchanged provided no line item references the absent invoice id
(which holds in every state the system itself produces). -/
theorem claim_C9_absent_id (st : Store) (id num : String) (u : ClientUpdate)
    (v : LineItemUpdate) (w : InvoiceUpdate) (now : Nat) :
    ((∀ c ∈ st.clients, c.id ≠ id) →
      getClient st id = none ∧ updateClient st id u = (none, st) ∧
      deleteClient st id = (false, st)) ∧
    ((∀ li ∈ st.lineItems, li.id ≠ id) →
      updateLineItem st id v = (none, st) ∧ deleteLineItem st id = (false, st)) ∧
    ((∀ inv ∈ st.invoices, inv.id ≠ id) →
      getInvoice st id = none ∧ updateInvoice now id w st = (none, st) ∧
      (deleteInvoice st id).1 = false ∧
      (deleteInvoice st id).2.clients = st.clients ∧
      (deleteInvoice st id).2.invoices = st.invoices ∧
      ((∀ li ∈ st.lineItems, li.invoiceId ≠ id) →
        deleteInvoice st id = (false, st))) ∧
    ((∀ inv ∈ st.invoices, inv.invoiceNumber ≠ num) →
      getInvoiceByNumber st num = none) := by
  refine ⟨?_, ?_, ?_, ?_⟩
  · intro h
    refine ⟨mget_eq_none h, ?_, ?_⟩
    · unfold updateClient
      rw [mget_eq_none h]
    · unfold deleteClient
      rw [mcontains_eq_false (mget_eq_none h), mdelete_eq_self h]
  · intro h
    refine ⟨?_, ?_⟩
    · unfold updateLineItem
      rw [mget_eq_none h]
    · unfold deleteLineItem
      rw [mcontains_eq_false (mget_eq_none h), mdelete_eq_self h]
  · intro h
    refine ⟨?_, ?_, ?_, ?_, ?_, ?_⟩
    · unfold getInvoice
      rw [mget_eq_none h]
      rfl
    · unfold updateInvoice
      rw [mget_eq_none h]
    · rw [deleteInvoice_eq]
      exact mcontains_eq_false (mget_eq_none h)
    · rw [deleteInvoice_eq]
    · rw [deleteInvoice_eq]
      exact mdelete_eq_self h
    · intro h2
      have hitems : getLineItemsByInvoiceId st id = [] := by
        unfold getLineItemsByInvoiceId
        rw [List.filter_eq_nil_iff]
        intro li hli
        simp [h2 li hli]
      rw [deleteInvoice_eq, hitems]
      rw [mcontains_eq_false (mget_eq_none h), mdelete_eq_self h]
      simp
  · intro h
    unfold getInvoiceByNumber
    rw [List.find?_eq_none.mpr (fun inv hinv => by simp [h inv hinv])]
    rfl

/-- C9 witness: in the two-invoice store, the absent id `nope` and the
absent number `INV-009` behave as stated. -/
theorem claim_C9_witness :
    getClient stTwo "nope" = none ∧
    updateInvoice 0 "nope" updNoneInvoice stTwo = (none, stTwo) ∧
    deleteInvoice stTwo "nope" = (false, stTwo) ∧
    getInvoiceByNumber stTwo "INV-009" = none := by
  have h := claim_C9_absent_id stTwo "nope" "INV-009" updNoneClient
    updNoneLineItem updNoneInvoice 0
  exact ⟨(h.1 (by decide)).1, (h.2.2.1 (by decide)).2.1,
    (h.2.2.1 (by decide)).2.2.2.2.2 (by decide), h.2.2.2 (by decide)⟩

/-- C10: the invoice stored by `createInvoice` always has status `draft` and
`clientId` null, regardless of the request and of the store contents (in
particular even when clients exist in the store), and that is exactly the
record placed in the invoices map. -/
theorem claim_C10_draft_no_client (invId : String) (itemIds : Nat → String)
    (now : Nat) (req : CreateInvoiceRequest) (st : Store) :
    (createInvoice invId itemIds now req st).1.1.status = "draft" ∧
    (createInvoice invId itemIds now req st).1.1.clientId = none ∧
    mget (fun i => i.id) (createInvoice invId itemIds now req st).2.invoices invId
      = some (createInvoice invId itemIds now req st).1.1 :=
  ⟨createInvoice_status invId itemIds now req st,
   createInvoice_clientId invId itemIds now req st,
   createInvoice_mget invId itemIds now req st⟩

end InvoiceForge
